import Mathlib

/-!
Shallow embedding of `wyoming_onnx_asr/handler.py` (class `NemoAsrEventHandler`).

The handler is an event-driven session state machine: it buffers `AudioChunk`
payloads into a per-session WAV sink, and on `AudioStop` decodes the sink,
down-mixes to mono, selects a model by language, and calls the selected model's
`recognize` under the shared `model_lock`.

External collaborators are modelled abstractly:
* the `soundfile.read` decoder is a parameter `sf_read : WavFile → Waveform × Nat`
  (waveform and sample rate);
* an ASR adapter is a function `Model` whose `Except.error` result models a
  Python exception raised by `recognize`;
* raw PCM bytes are lists of byte values.
-/

namespace WyomingOnnxAsr

/-- Raw PCM bytes (the `audio` payload of a chunk and the WAV data). -/
abbrev Bytes := List Nat

/-- The temporary WAV sink (`self._wav_file`): format parameters are set once,
from the first chunk (handler.py lines 68-72), and `writeframes` appends raw
bytes. -/
structure WavFile where
  rate : Nat
  width : Nat
  channels : Nat
  data : Bytes
  deriving DecidableEq

/-- Result of the external decoder `sf.read`: a 1-D array for mono files, a
2-D frames-by-channels array otherwise.  Samples are modelled as rationals. -/
inductive Waveform where
  | mono (samples : List ℚ)
  | multi (frames : List (List ℚ))
  deriving DecidableEq

/-- handler.py lines 88-90: `if len(waveform.shape) > 1: waveform =
np.mean(waveform, axis=1)` — a 2-D waveform is down-mixed by taking, for each
frame, the arithmetic mean over the channel axis; a 1-D waveform is unchanged. -/
def toMono : Waveform → List ℚ
  | Waveform.mono samples => samples
  | Waveform.multi frames => frames.map (fun f => f.sum / (f.length : ℚ))

/-- An ASR adapter: `recognize(waveform, sample_rate, language)` returns a
transcript or raises (modelled by `Except.error`). -/
def Model : Type := List ℚ → Nat → String → Except String String

/-- Constructor configuration of the handler: the model registry `self.models`
(an association list keyed by language code) and `self.initial_prompt`. Both
are set in `__init__` and never reassigned. -/
structure Config where
  models : List (String × Model)
  initial_prompt : Option String

/-- The mutable per-session fields: `self.request_language` and
`self._wav_file`. -/
structure SessionState where
  request_language : Option String
  wav_file : Option WavFile

/-- The protocol events the handler dispatches on, plus `other` for event
types it does not recognize (the final `return True`). -/
inductive Event where
  | audioChunk (rate width channels : Nat) (audio : Bytes)
  | audioStop
  | transcribe (language : Option String)
  | describe
  | other (ty : String)
  deriving DecidableEq

/-- Events written back to the client: `Transcript(text=...)` and the static
info payload answering `Describe`. -/
inductive Output where
  | transcript (text : String)
  | info
  deriving DecidableEq

/-- The arguments of one `model.recognize(waveform, sample_rate, language)`
invocation. -/
structure RecognizeCall where
  waveform : List ℚ
  sampleRate : Nat
  language : String
  deriving DecidableEq

/-- Trace of operations on the shared `model_lock` (`async with
self.model_lock:` around the recognize call). -/
inductive LockEvent where
  | acquire
  | invoke (c : RecognizeCall)
  | release
  deriving DecidableEq

/-- Python truthiness of `x or default` for an optional string: both `None`
and the empty string are falsy (handler.py line 93: `self.request_language or
"en"`). -/
def pyOr (x : Option String) (dflt : String) : String :=
  match x with
  | none => dflt
  | some s => if s = "" then dflt else s

/-- Python truthiness of `if self.request_language:` (handler.py line 110). -/
def pyTruthy (x : Option String) : Bool :=
  match x with
  | none => false
  | some s => !(s = "")

/-- The registry keys, `list(self.models.keys())`. -/
def keysOf (models : List (String × Model)) : List String :=
  models.map Prod.fst

/-- The model-selection policy of handler.py lines 99-107, as a pure function
of the effective language and the registry keys:

```
if lang == "en" and "en" in self.models: model = self.models["en"]
elif "multi" in self.models:             model = self.models["multi"]
elif "en" in self.models:                model = self.models["en"]
```
-/
def selectModelKey (lang : String) (keys : List String) : Option String :=
  if lang = "en" ∧ keys.contains "en" then some "en"
  else if keys.contains "multi" then some "multi"
  else if keys.contains "en" then some "en"
  else none

/-- The same selection returning the model itself (`model` variable at
handler.py line 109: `None` when no branch matched). -/
def selectModel (models : List (String × Model)) (lang : String) : Option Model :=
  if lang = "en" ∧ (keysOf models).contains "en" then models.lookup "en"
  else if (keysOf models).contains "multi" then models.lookup "multi"
  else if (keysOf models).contains "en" then models.lookup "en"
  else none

/-- The error message built at handler.py lines 110-119 when `model is None`. -/
def errNoModel (request_language : Option String) (keys : List String) : String :=
  if pyTruthy request_language then
    "Language '" ++ request_language.getD "" ++ "' is not supported. Available models: "
      ++ String.intercalate ", " keys
  else
    "No ASR model is available for transcription"

/-- Outcome of the transcription part of the `AudioStop` branch. -/
inductive StopOutcome where
  | noModel (errorMsg : String)
  | recognizeFailed (call : RecognizeCall) (errorMsg : String)
  | transcribed (call : RecognizeCall) (text : String)

/-- The arguments handler.py lines 130-132 pass to `recognize`: the decoded,
down-mixed waveform (lines 87-90), the decoded sample rate, and the effective
language (line 93). -/
def stopCall (sf_read : WavFile → Waveform × Nat) (request_language : Option String)
    (wav : WavFile) : RecognizeCall :=
  ⟨toMono (sf_read wav).1, (sf_read wav).2, pyOr request_language "en"⟩

/-- handler.py lines 125-142: `async with self.model_lock: try: text =
model.recognize(...) except ...`.  The lock is released on both the normal
exit and the early `return False` inside the `except` clause, so the trace is
always `acquire, invoke, release`. -/
def runRecognize (model : Model) (call : RecognizeCall) : StopOutcome × List LockEvent :=
  match model call.waveform call.sampleRate call.language with
  | Except.error e =>
      (StopOutcome.recognizeFailed call ("Transcription failed: " ++ e),
       [LockEvent.acquire, LockEvent.invoke call, LockEvent.release])
  | Except.ok text =>
      (StopOutcome.transcribed call text,
       [LockEvent.acquire, LockEvent.invoke call, LockEvent.release])

/-- handler.py lines 87-142, after the sink is closed: decode the WAV file,
down-mix, pick the effective language and the model; with no model the error
message of lines 110-119 is produced (the lock is never touched), otherwise
`recognize` runs under the lock. -/
def stopRun (sf_read : WavFile → Waveform × Nat) (cfg : Config)
    (request_language : Option String) (wav : WavFile) :
    StopOutcome × List LockEvent :=
  match selectModel cfg.models (pyOr request_language "en") with
  | none => (StopOutcome.noModel (errNoModel request_language (keysOf cfg.models)), [])
  | some model => runRecognize model (stopCall sf_read request_language wav)

/-- Result of handling one event: the new session state, the events written
to the client, the recognize invocations performed, the lock trace, and the
boolean returned by `handle_event`. -/
structure StepResult where
  state : SessionState
  outputs : List Output
  calls : List RecognizeCall
  lockTrace : List LockEvent
  cont : Bool

/-- The `AudioStop` branch when a sink is open (handler.py lines 84-152):
close the sink, run the transcription, and write either the transcript or an
`"ERROR: "`-prefixed message.  Only the successful path resets
`self.request_language` (line 150); both error paths `return False` before
reaching the reset. -/
def handleStop (sf_read : WavFile → Waveform × Nat) (cfg : Config)
    (request_language : Option String) (wav : WavFile) : StepResult :=
  match stopRun sf_read cfg request_language wav with
  | (StopOutcome.noModel msg, tr) =>
      ⟨⟨request_language, none⟩, [Output.transcript ("ERROR: " ++ msg)], [], tr, false⟩
  | (StopOutcome.recognizeFailed c msg, tr) =>
      ⟨⟨request_language, none⟩, [Output.transcript ("ERROR: " ++ msg)], [c], tr, false⟩
  | (StopOutcome.transcribed c text, tr) =>
      ⟨⟨none, none⟩, [Output.transcript text], [c], tr, false⟩

/-- `handle_event` (handler.py lines 64-165).  The `Except.error` case models
the `assert self._wav_file is not None` at line 82 raising `AssertionError`
(an exception that escapes the handler). -/
def handle_event (sf_read : WavFile → Waveform × Nat) (cfg : Config)
    (s : SessionState) (e : Event) : Except String StepResult :=
  match e with
  | Event.audioChunk rate width channels audio =>
      match s.wav_file with
      | none =>
          Except.ok ⟨{ s with wav_file := some ⟨rate, width, channels, audio⟩ },
            [], [], [], true⟩
      | some w =>
          Except.ok ⟨{ s with wav_file := some { w with data := w.data ++ audio } },
            [], [], [], true⟩
  | Event.audioStop =>
      match s.wav_file with
      | none => Except.error "AssertionError: self._wav_file is not None"
      | some wav => Except.ok (handleStop sf_read cfg s.request_language wav)
  | Event.transcribe language =>
      Except.ok ⟨{ s with request_language := language }, [], [], [], true⟩
  | Event.describe =>
      Except.ok ⟨s, [Output.info], [], [], true⟩
  | Event.other _ =>
      Except.ok ⟨s, [], [], [], true⟩

/-- Aggregate result of a run over several events. -/
structure RunResult where
  state : SessionState
  outputs : List Output
  calls : List RecognizeCall

/-- The server's event loop: feed events to `handle_event` until it returns
`False` (ending the session), the events run out, or an exception escapes. -/
def run (sf_read : WavFile → Waveform × Nat) (cfg : Config) (s : SessionState) :
    List Event → Except String RunResult
  | [] => Except.ok ⟨s, [], []⟩
  | e :: es =>
      match handle_event sf_read cfg s e with
      | Except.error msg => Except.error msg
      | Except.ok r =>
          if r.cont then
            match run sf_read cfg r.state es with
            | Except.error msg => Except.error msg
            | Except.ok r2 => Except.ok ⟨r2.state, r.outputs ++ r2.outputs, r.calls ++ r2.calls⟩
          else Except.ok ⟨r.state, r.outputs, r.calls⟩

/-- The model selected on `AudioStop`, as a pure function of the pending
request language and the registry keys (handler.py line 93 composed with lines
99-107). -/
def selectedFor (language : Option String) (keys : List String) : Option String :=
  selectModelKey (pyOr language "en") keys

/-! ### Concrete fixtures used by witnesses and counterexamples -/

/-- A decoder fixture: one mono sample, sample rate taken from the file. -/
def sfReadMono : WavFile → Waveform × Nat := fun w => (Waveform.mono [1], w.rate)

/-- A model fixture that always returns a transcript. -/
def okModel : Model := fun _ _ _ => Except.ok "hello world"

/-- A model fixture that always raises. -/
def failModel : Model := fun _ _ _ => Except.error "boom"

/-- A small WAV fixture. -/
def wav16k : WavFile := ⟨16000, 2, 1, [0, 0]⟩

/-- One `AudioChunk` payload. -/
structure ChunkData where
  rate : Nat
  width : Nat
  channels : Nat
  audio : Bytes
  deriving DecidableEq

/-- The event stream carrying a list of chunks. -/
def chunkEvents (chunks : List ChunkData) : List Event :=
  chunks.map (fun c => Event.audioChunk c.rate c.width c.channels c.audio)

/-- The chunks' raw bytes concatenated in arrival order. -/
def joinAudio (chunks : List ChunkData) : Bytes :=
  (chunks.map ChunkData.audio).flatten

/-- A decoder fixture decoding to one 2-channel frame. -/
def sfReadStereo : WavFile → Waveform × Nat := fun w => (Waveform.multi [[0, 1]], w.rate)

/-! ### Concurrency model of the shared Inference Gate

`self.model_lock` is one `asyncio.Lock` shared by every session handler; the
`recognize` call sits inside `async with self.model_lock:` (handler.py lines
125-132).  Sessions are cooperatively scheduled tasks; the model below
interleaves their stop handling around the lock. -/

/-- Identifier of one session task. -/
abbrev SessionId := Nat

/-- Phase of a session's `AudioStop` handling relative to the gate: not yet at
the lock, suspended at `async with self.model_lock`, executing `recognize`
inside the critical region, or past the release. -/
inductive Phase where
  | idle
  | waiting
  | recognizing
  | finished
  deriving DecidableEq

/-- Global state: every session's phase, plus the holder of the lock (an
`asyncio.Lock` is free or held by exactly one task). -/
structure GateState where
  phases : SessionId → Phase
  lockHolder : Option SessionId

/-- All sessions idle, lock free. -/
def initGate : GateState :=
  ⟨fun _ => Phase.idle, none⟩

/-- Interleaving semantics of the sessions around the shared lock: a session
may reach the `async with` (request), acquire the lock when it is free and
enter `recognize`, or leave `recognize` and release.  Only the holder
releases; acquisition requires the lock to be free — the semantics of
`asyncio.Lock`. -/
inductive GateStep : GateState → GateState → Prop where
  | request (s : GateState) (i : SessionId) :
      s.phases i = Phase.idle →
      GateStep s ⟨Function.update s.phases i Phase.waiting, s.lockHolder⟩
  | acquire (s : GateState) (i : SessionId) :
      s.phases i = Phase.waiting → s.lockHolder = none →
      GateStep s ⟨Function.update s.phases i Phase.recognizing, some i⟩
  | release (s : GateState) (i : SessionId) :
      s.phases i = Phase.recognizing → s.lockHolder = some i →
      GateStep s ⟨Function.update s.phases i Phase.finished, none⟩

/-- States reachable from the initial state by interleaved session steps. -/
inductive GateReachable : GateState → Prop where
  | init : GateReachable initGate
  | step {s t : GateState} : GateReachable s → GateStep s t → GateReachable t

/-- Session 0 waiting at the lock. -/
def gateS1 : GateState :=
  ⟨Function.update (fun _ => Phase.idle) 0 Phase.waiting, none⟩

/-- Session 0 inside `recognize`, holding the lock. -/
def gateS2 : GateState :=
  ⟨Function.update (Function.update (fun _ => Phase.idle) 0 Phase.waiting) 0 Phase.recognizing,
   some 0⟩

/-- Whether the lock is held after a trace of lock operations, starting from
the given holding state. -/
def lockHeldAfter : List LockEvent → Bool → Bool
  | [], held => held
  | LockEvent.acquire :: t, _ => lockHeldAfter t true
  | LockEvent.release :: t, _ => lockHeldAfter t false
  | LockEvent.invoke _ :: t, held => lockHeldAfter t held

/-! ### Helper lemmas -/

/-- Exhaustive characterization of the three outcomes of the transcription
part of the `AudioStop` branch. -/
theorem stopRun_cases (sf_read : WavFile → Waveform × Nat) (cfg : Config)
    (rl : Option String) (wav : WavFile) :
    (selectModel cfg.models (pyOr rl "en") = none ∧
      stopRun sf_read cfg rl wav =
        (StopOutcome.noModel (errNoModel rl (keysOf cfg.models)), [])) ∨
    (∃ model e, selectModel cfg.models (pyOr rl "en") = some model ∧
      model (stopCall sf_read rl wav).waveform (stopCall sf_read rl wav).sampleRate
          (stopCall sf_read rl wav).language = Except.error e ∧
      stopRun sf_read cfg rl wav =
        (StopOutcome.recognizeFailed (stopCall sf_read rl wav) ("Transcription failed: " ++ e),
         [LockEvent.acquire, LockEvent.invoke (stopCall sf_read rl wav), LockEvent.release])) ∨
    (∃ model text, selectModel cfg.models (pyOr rl "en") = some model ∧
      model (stopCall sf_read rl wav).waveform (stopCall sf_read rl wav).sampleRate
          (stopCall sf_read rl wav).language = Except.ok text ∧
      stopRun sf_read cfg rl wav =
        (StopOutcome.transcribed (stopCall sf_read rl wav) text,
         [LockEvent.acquire, LockEvent.invoke (stopCall sf_read rl wav), LockEvent.release])) := by
  cases hsel : selectModel cfg.models (pyOr rl "en") with
  | none => exact Or.inl ⟨rfl, by unfold stopRun; rw [hsel]⟩
  | some model =>
      cases hrec : model (stopCall sf_read rl wav).waveform (stopCall sf_read rl wav).sampleRate
          (stopCall sf_read rl wav).language with
      | error e =>
          refine Or.inr (Or.inl ⟨model, e, rfl, hrec, ?_⟩)
          unfold stopRun
          rw [hsel]
          change runRecognize model (stopCall sf_read rl wav) = _
          unfold runRecognize
          rw [hrec]
      | ok text =>
          refine Or.inr (Or.inr ⟨model, text, rfl, hrec, ?_⟩)
          unfold stopRun
          rw [hsel]
          change runRecognize model (stopCall sf_read rl wav) = _
          unfold runRecognize
          rw [hrec]

theorem lookup_isSome_of_contains {models : List (String × Model)} {k : String}
    (h : (keysOf models).contains k = true) : ∃ m, models.lookup k = some m := by
  induction models with
  | nil => simp [keysOf] at h
  | cons p ps ih =>
      rw [show keysOf (p :: ps) = p.1 :: keysOf ps from rfl, List.contains_cons] at h
      cases hk : (k == p.1) with
      | true => exact ⟨p.2, by simp [List.lookup, hk]⟩
      | false =>
          rw [hk, Bool.false_or] at h
          rcases ih h with ⟨m, hm⟩
          exact ⟨m, by simp [List.lookup, hk, hm]⟩

theorem selectModel_eq_bind (models : List (String × Model)) (lang : String) :
    selectModel models lang = (selectModelKey lang (keysOf models)).bind models.lookup := by
  unfold selectModel selectModelKey
  split_ifs <;> rfl

/-- C1: Model selection is a pure function of the requested language and the
registry keys, following the priority order: an effective language of "en"
(requested "en" or unset, defaulting to "en") with an "en" entry selects "en";
otherwise a "multi" entry is selected; otherwise an "en" entry is selected as
fallback; otherwise no model is selected and the stop event produces an
"ERROR: "-tagged transcript (configuration error).  The five example pairs
evaluate as the claim states. -/
theorem C1_model_selection :
    (∀ (language : Option String) (keys : List String),
      (pyOr language "en" = "en" → keys.contains "en" = true →
          selectedFor language keys = some "en") ∧
      (¬(pyOr language "en" = "en" ∧ keys.contains "en" = true) →
          keys.contains "multi" = true → selectedFor language keys = some "multi") ∧
      (¬(pyOr language "en" = "en" ∧ keys.contains "en" = true) →
          keys.contains "multi" = false → keys.contains "en" = true →
          selectedFor language keys = some "en") ∧
      (keys.contains "en" = false → keys.contains "multi" = false →
          selectedFor language keys = none)) ∧
    (∀ (cfg : Config) (language : Option String),
        selectModel cfg.models (pyOr language "en") =
          (selectedFor language (keysOf cfg.models)).bind cfg.models.lookup) ∧
    (∀ (sf_read : WavFile → Waveform × Nat) (cfg : Config) (s : SessionState) (wav : WavFile),
        s.wav_file = some wav →
        selectedFor s.request_language (keysOf cfg.models) = none →
        handle_event sf_read cfg s Event.audioStop =
          Except.ok ⟨⟨s.request_language, none⟩,
            [Output.transcript ("ERROR: " ++ errNoModel s.request_language (keysOf cfg.models))],
            [], [], false⟩) ∧
    selectedFor (some "en") ["en"] = some "en" ∧
    selectedFor (some "fr") ["en", "multi"] = some "multi" ∧
    selectedFor (some "fr") ["en"] = some "en" ∧
    selectedFor none ["multi"] = some "multi" ∧
    selectedFor (some "en") ([] : List String) = none := by
  refine ⟨?_, ?_, ?_, by decide, by decide, by decide, by decide, by decide⟩
  · intro language keys
    refine ⟨?_, ?_, ?_, ?_⟩ <;> intros <;> unfold selectedFor selectModelKey <;>
      split_ifs <;> simp_all
  · intro cfg language
    exact selectModel_eq_bind cfg.models (pyOr language "en")
  · intro sf_read cfg s wav hw hsel
    have hmodel : selectModel cfg.models (pyOr s.request_language "en") = none := by
      unfold selectedFor at hsel
      rw [selectModel_eq_bind, hsel]
      rfl
    simp only [handle_event, hw, handleStop, stopRun, hmodel]

/-- Witness for C1: the hypotheses are satisfiable at concrete inputs. -/
theorem C1_model_selection_witness :
    selectedFor (some "fr") ["en", "multi"] = some "multi" ∧
    handle_event sfReadMono ⟨[], none⟩ ⟨some "en", some wav16k⟩ Event.audioStop =
      Except.ok ⟨⟨some "en", none⟩,
        [Output.transcript ("ERROR: " ++ errNoModel (some "en") [])], [], [], false⟩ := by
  constructor
  · exact (C1_model_selection.1 (some "fr") ["en", "multi"]).2.1 (by decide) (by decide)
  · exact C1_model_selection.2.2.1 sfReadMono ⟨[], none⟩ ⟨some "en", some wav16k⟩ wav16k
      rfl (by decide)

theorem handle_event_stop (sf_read : WavFile → Waveform × Nat) (cfg : Config)
    (s : SessionState) (wav : WavFile) (h : s.wav_file = some wav) :
    handle_event sf_read cfg s Event.audioStop =
      Except.ok (handleStop sf_read cfg s.request_language wav) := by
  unfold handle_event
  rw [h]

/-- C2 counterexample: with an empty registry a handled `AudioStop` completes
with an error transcript, yet the pending requested language is still
`some "fr"` afterwards — it is not reset to unset. -/
theorem C2_language_reset_counterexample :
    (handle_event sfReadMono ⟨[], none⟩ ⟨some "fr", some wav16k⟩ Event.audioStop).map
        (fun r => r.state.request_language) = Except.ok (some "fr") ∧
    (Except.ok (some "fr") : Except String (Option String)) ≠ Except.ok none := by
  exact ⟨rfl, by simp⟩

/-- C2 (amended): after a handled `AudioStop`, the pending requested language
is reset to unset when the outcome is a successful transcript, and is left
unchanged on the error outcomes (no model selectable, or `recognize` raised). -/
theorem C2_language_reset_amended (sf_read : WavFile → Waveform × Nat) (cfg : Config)
    (s : SessionState) (wav : WavFile) (h : s.wav_file = some wav) (r : StepResult)
    (hr : handle_event sf_read cfg s Event.audioStop = Except.ok r) :
    r.state.request_language =
      match (stopRun sf_read cfg s.request_language wav).1 with
      | StopOutcome.transcribed _ _ => none
      | _ => s.request_language := by
  rw [handle_event_stop sf_read cfg s wav h] at hr
  have hr2 : r = handleStop sf_read cfg s.request_language wav := by
    injection hr with h2
    exact h2.symm
  subst hr2
  unfold handleStop
  generalize stopRun sf_read cfg s.request_language wav = p
  obtain ⟨o, tr⟩ := p
  cases o <;> rfl

/-- Witness for C2 (amended): on a successful transcription the field is in
fact reset. -/
theorem C2_language_reset_amended_witness :
    (handleStop sfReadMono ⟨[("en", okModel)], none⟩ (some "en") wav16k).state.request_language
      = none := by
  have h := C2_language_reset_amended sfReadMono ⟨[("en", okModel)], none⟩
    ⟨some "en", some wav16k⟩ wav16k rfl
    (handleStop sfReadMono ⟨[("en", okModel)], none⟩ (some "en") wav16k) rfl
  exact h.trans rfl

/-- C3: whenever `AudioStop` is handled with an open sink, no exception
propagates out of `handle_event`; the lock is not held afterwards; and if the
outcome is not a successful transcript (no model selectable — covering both an
unsupported language and an empty registry — or `recognize` raised), the
single output is a `Transcript` whose text carries the `"ERROR: "` prefix. -/
theorem C3_error_containment (sf_read : WavFile → Waveform × Nat) (cfg : Config)
    (s : SessionState) (wav : WavFile) (h : s.wav_file = some wav) :
    ∃ r, handle_event sf_read cfg s Event.audioStop = Except.ok r ∧
      lockHeldAfter r.lockTrace false = false ∧
      ((∀ c t, (stopRun sf_read cfg s.request_language wav).1 ≠ StopOutcome.transcribed c t) →
        ∃ msg, r.outputs = [Output.transcript ("ERROR: " ++ msg)]) := by
  refine ⟨handleStop sf_read cfg s.request_language wav,
    handle_event_stop sf_read cfg s wav h, ?_, ?_⟩
  · unfold handleStop
    rcases stopRun_cases sf_read cfg s.request_language wav with
      ⟨-, he⟩ | ⟨m, e, -, -, he⟩ | ⟨m, t, -, -, he⟩ <;> rw [he] <;> rfl
  · intro hno
    unfold handleStop
    rcases stopRun_cases sf_read cfg s.request_language wav with
      ⟨-, he⟩ | ⟨m, e, -, -, he⟩ | ⟨m, t, -, -, he⟩
    · rw [he]
      exact ⟨_, rfl⟩
    · rw [he]
      exact ⟨_, rfl⟩
    · exact absurd (by rw [he]) (hno (stopCall sf_read s.request_language wav) t)

/-- Witness for C3: a concrete session whose model raises. -/
theorem C3_error_containment_witness :
    ∃ r, handle_event sfReadMono ⟨[("en", failModel)], none⟩ ⟨none, some wav16k⟩
        Event.audioStop = Except.ok r ∧
      lockHeldAfter r.lockTrace false = false ∧
      ((∀ c t, (stopRun sfReadMono ⟨[("en", failModel)], none⟩ none wav16k).1 ≠
          StopOutcome.transcribed c t) →
        ∃ msg, r.outputs = [Output.transcript ("ERROR: " ++ msg)]) :=
  C3_error_containment sfReadMono ⟨[("en", failModel)], none⟩ ⟨none, some wav16k⟩ wav16k rfl

/-- C4 (the spec's intended behavior, §7): handling `AudioStop` with no open
sink should be a recoverable protocol error; in the code it instead hits
`assert self._wav_file is not None` (handler.py line 82) and the resulting
`AssertionError` escapes `handle_event` — a fatal failure of the session
handler, not a signaled recoverable error. -/
theorem C4_stop_without_sink_asserts (sf_read : WavFile → Waveform × Nat) (cfg : Config)
    (request_language : Option String) :
    handle_event sf_read cfg ⟨request_language, none⟩ Event.audioStop =
      Except.error "AssertionError: self._wav_file is not None" := rfl

/-- C5: a `Transcribe` event records its (possibly absent) language as the
pending requested language, leaves the sink untouched, performs no recognize
call, emits no output, and returns `True`; the recorded language (defaulted à
la Python to "en") is the one the next `AudioStop` passes to `recognize`. -/
theorem C5_transcribe_records_language (sf_read : WavFile → Waveform × Nat) (cfg : Config)
    (s : SessionState) (language : Option String) :
    handle_event sf_read cfg s (Event.transcribe language) =
      Except.ok ⟨⟨language, s.wav_file⟩, [], [], [], true⟩ ∧
    (∀ wav c t, (stopRun sf_read cfg language wav).1 = StopOutcome.transcribed c t →
        c.language = pyOr language "en") ∧
    (∀ wav c msg, (stopRun sf_read cfg language wav).1 = StopOutcome.recognizeFailed c msg →
        c.language = pyOr language "en") := by
  refine ⟨rfl, ?_, ?_⟩
  · intro wav c t hct
    rcases stopRun_cases sf_read cfg language wav with
      ⟨-, he⟩ | ⟨m, e, -, -, he⟩ | ⟨m, tx, -, -, he⟩ <;> rw [he] at hct <;> simp at hct
    obtain ⟨hc, -⟩ := hct
    rw [← hc]
    rfl
  · intro wav c msg hcm
    rcases stopRun_cases sf_read cfg language wav with
      ⟨-, he⟩ | ⟨m, e, -, -, he⟩ | ⟨m, tx, -, -, he⟩ <;> rw [he] at hcm <;> simp at hcm
    obtain ⟨hc, -⟩ := hcm
    rw [← hc]
    rfl

/-- Witness for C5: concrete transcribe-then-stop run where the recorded
"fr" hint drives the recognize call. -/
theorem C5_transcribe_records_language_witness :
    handle_event sfReadMono ⟨[("multi", okModel)], none⟩ ⟨none, none⟩
        (Event.transcribe (some "fr")) =
      Except.ok ⟨⟨some "fr", none⟩, [], [], [], true⟩ ∧
    (stopCall sfReadMono (some "fr") wav16k).language = pyOr (some "fr") "en" := by
  have h := C5_transcribe_records_language sfReadMono ⟨[("multi", okModel)], none⟩
    ⟨none, none⟩ (some "fr")
  exact ⟨h.1, h.2.1 wav16k (stopCall sfReadMono (some "fr") wav16k) "hello world" rfl⟩

theorem handleStop_cont (sf_read : WavFile → Waveform × Nat) (cfg : Config)
    (rl : Option String) (wav : WavFile) :
    (handleStop sf_read cfg rl wav).cont = false := by
  unfold handleStop
  generalize stopRun sf_read cfg rl wav = p
  obtain ⟨o, tr⟩ := p
  cases o <;> rfl

theorem run_cons_true (sf_read : WavFile → Waveform × Nat) (cfg : Config)
    (s : SessionState) (e : Event) (es : List Event) (r : StepResult)
    (h : handle_event sf_read cfg s e = Except.ok r) (hc : r.cont = true)
    (ho : r.outputs = []) (hcl : r.calls = []) :
    run sf_read cfg s (e :: es) = run sf_read cfg r.state es := by
  simp only [run, h, hc, ho, hcl]
  cases hrun : run sf_read cfg r.state es with
  | error msg => rfl
  | ok r2 => simp

theorem run_chunks_then (sf_read : WavFile → Waveform × Nat) (cfg : Config)
    (rl : Option String) (w : WavFile) (cs : List ChunkData) (es : List Event) :
    run sf_read cfg ⟨rl, some w⟩ (chunkEvents cs ++ es) =
      run sf_read cfg ⟨rl, some { w with data := w.data ++ joinAudio cs }⟩ es := by
  induction cs generalizing w with
  | nil =>
      show run sf_read cfg ⟨rl, some w⟩ es = _
      have hw : ({ w with data := w.data ++ joinAudio [] } : WavFile) = w := by
        simp [joinAudio]
      rw [hw]
  | cons c cs ih =>
      have hce : chunkEvents (c :: cs) ++ es =
          Event.audioChunk c.rate c.width c.channels c.audio :: (chunkEvents cs ++ es) := by
        simp [chunkEvents]
      rw [hce]
      rw [run_cons_true sf_read cfg ⟨rl, some w⟩
        (Event.audioChunk c.rate c.width c.channels c.audio) (chunkEvents cs ++ es)
        ⟨⟨rl, some { w with data := w.data ++ c.audio }⟩, [], [], [], true⟩ rfl rfl rfl rfl]
      rw [ih]
      have hdata : ({ w with data := w.data ++ c.audio } : WavFile).data ++ joinAudio cs =
          w.data ++ joinAudio (c :: cs) := by
        simp [joinAudio, List.append_assoc]
      simp only [hdata]

/-- C6: for every nonempty sequence of `AudioChunk` events, the sink ends up
configured from the first chunk's rate, width and channel count only, holding
the concatenation of all chunks' bytes in arrival order; a following
`AudioStop` finalizes and reads back exactly that sink. -/
theorem C6_sink_roundtrip (sf_read : WavFile → Waveform × Nat) (cfg : Config)
    (rl : Option String) (c : ChunkData) (cs : List ChunkData) :
    run sf_read cfg ⟨rl, none⟩ (chunkEvents (c :: cs)) =
      Except.ok ⟨⟨rl, some ⟨c.rate, c.width, c.channels, c.audio ++ joinAudio cs⟩⟩, [], []⟩ ∧
    run sf_read cfg ⟨rl, none⟩ (chunkEvents (c :: cs) ++ [Event.audioStop]) =
      Except.ok
        ⟨(handleStop sf_read cfg rl ⟨c.rate, c.width, c.channels, c.audio ++ joinAudio cs⟩).state,
         (handleStop sf_read cfg rl ⟨c.rate, c.width, c.channels, c.audio ++ joinAudio cs⟩).outputs,
         (handleStop sf_read cfg rl ⟨c.rate, c.width, c.channels, c.audio ++ joinAudio cs⟩).calls⟩ := by
  have hfirst : ∀ es : List Event,
      run sf_read cfg ⟨rl, none⟩ (chunkEvents (c :: cs) ++ es) =
        run sf_read cfg ⟨rl, some ⟨c.rate, c.width, c.channels, c.audio ++ joinAudio cs⟩⟩ es := by
    intro es
    have hce : chunkEvents (c :: cs) ++ es =
        Event.audioChunk c.rate c.width c.channels c.audio :: (chunkEvents cs ++ es) := by
      simp [chunkEvents]
    rw [hce]
    rw [run_cons_true sf_read cfg ⟨rl, none⟩
      (Event.audioChunk c.rate c.width c.channels c.audio) (chunkEvents cs ++ es)
      ⟨⟨rl, some ⟨c.rate, c.width, c.channels, c.audio⟩⟩, [], [], [], true⟩ rfl rfl rfl rfl]
    exact run_chunks_then sf_read cfg rl ⟨c.rate, c.width, c.channels, c.audio⟩ cs es
  constructor
  · have h := hfirst []
    rw [List.append_nil] at h
    rw [h]
    rfl
  · rw [hfirst [Event.audioStop]]
    have h1 : handle_event sf_read cfg
        ⟨rl, some ⟨c.rate, c.width, c.channels, c.audio ++ joinAudio cs⟩⟩ Event.audioStop =
        Except.ok (handleStop sf_read cfg rl
          ⟨c.rate, c.width, c.channels, c.audio ++ joinAudio cs⟩) := rfl
    simp only [run, h1, handleStop_cont]
    simp

/-- C7: the waveform handed to every `recognize` call is the down-mix of the
decoded recording: a 1-D (single-channel) waveform is passed through
unchanged, and an N-channel recording is reduced per frame to the arithmetic
mean over the channel axis — in particular a 2-channel frame `[a, b]` becomes
`(a + b) / 2`. -/
theorem C7_downmix (sf_read : WavFile → Waveform × Nat) (cfg : Config)
    (rl : Option String) (wav : WavFile) :
    (∀ c msg, (stopRun sf_read cfg rl wav).1 = StopOutcome.recognizeFailed c msg →
        c.waveform = toMono (sf_read wav).1) ∧
    (∀ c t, (stopRun sf_read cfg rl wav).1 = StopOutcome.transcribed c t →
        c.waveform = toMono (sf_read wav).1) ∧
    (∀ samples, toMono (Waveform.mono samples) = samples) ∧
    (∀ (frames : List (List ℚ)) (n : Nat), (∀ f ∈ frames, f.length = n) →
        toMono (Waveform.multi frames) = frames.map (fun f => f.sum / (n : ℚ))) ∧
    (∀ a b : ℚ, toMono (Waveform.multi [[a, b]]) = [(a + b) / 2]) := by
  refine ⟨?_, ?_, fun samples => rfl, ?_, ?_⟩
  · intro c msg hcm
    rcases stopRun_cases sf_read cfg rl wav with
      ⟨-, he⟩ | ⟨m, e, -, -, he⟩ | ⟨m, tx, -, -, he⟩ <;> rw [he] at hcm <;> simp at hcm
    obtain ⟨hc, -⟩ := hcm
    rw [← hc]
    rfl
  · intro c t hct
    rcases stopRun_cases sf_read cfg rl wav with
      ⟨-, he⟩ | ⟨m, e, -, -, he⟩ | ⟨m, tx, -, -, he⟩ <;> rw [he] at hct <;> simp at hct
    obtain ⟨hc, -⟩ := hct
    rw [← hc]
    rfl
  · intro frames n hlen
    unfold toMono
    exact List.map_congr_left (fun f hf => by rw [hlen f hf])
  · intro a b
    have hsum : ([a, b] : List ℚ).sum = a + b := by simp
    have hlen : (([a, b] : List ℚ).length : ℚ) = 2 := by norm_num
    rw [show toMono (Waveform.multi [[a, b]]) =
      [([a, b] : List ℚ).sum / (([a, b] : List ℚ).length : ℚ)] from rfl, hsum, hlen]

/-- Witness for C7: a concrete stereo recording reaches `recognize`
down-mixed, and a concrete rectangular 2-channel matrix averages per frame. -/
theorem C7_downmix_witness :
    (stopCall sfReadStereo none wav16k).waveform = toMono (sfReadStereo wav16k).1 ∧
    toMono (Waveform.multi [[(1 : ℚ), 3]]) =
      [[(1 : ℚ), 3]].map (fun f => f.sum / ((2 : Nat) : ℚ)) ∧
    toMono (Waveform.multi [[(1 : ℚ), 3]]) = [((1 : ℚ) + 3) / 2] := by
  have h := C7_downmix sfReadStereo ⟨[("en", okModel)], none⟩ none wav16k
  exact ⟨h.2.1 (stopCall sfReadStereo none wav16k) "hello world" rfl,
    h.2.2.2.1 [[(1 : ℚ), 3]] 2 (by decide),
    h.2.2.2.2 1 3⟩

/-- C8: `initial_prompt` is accepted by the constructor but never reaches the
inference call: two runs of the handler over the same event sequence that
differ only in the `initial_prompt` value are indistinguishable — same final
state, same recognize-call arguments, same emitted events. -/
theorem C8_initial_prompt_noninterference (sf_read : WavFile → Waveform × Nat)
    (models : List (String × Model)) (p1 p2 : Option String)
    (s : SessionState) (es : List Event) :
    run sf_read ⟨models, p1⟩ s es = run sf_read ⟨models, p2⟩ s es := by
  induction es generalizing s with
  | nil => rfl
  | cons e es ih =>
      have he : handle_event sf_read ⟨models, p1⟩ s e =
          handle_event sf_read ⟨models, p2⟩ s e := rfl
      simp only [run, he, ih]

/-- C9: every `recognize` invocation sits between the acquisition and the
release of the shared lock (within one stop's trace), and in the interleaving
semantics of the shared `asyncio.Lock`, two sessions are never inside
`recognize` at the same instant. -/
theorem C9_mutual_exclusion :
    (∀ s : GateState, GateReachable s → ∀ i j : SessionId,
      s.phases i = Phase.recognizing → s.phases j = Phase.recognizing → i = j) ∧
    (∀ (sf_read : WavFile → Waveform × Nat) (cfg : Config) (rl : Option String)
        (wav : WavFile) (c : RecognizeCall),
      LockEvent.invoke c ∈ (stopRun sf_read cfg rl wav).2 →
      (stopRun sf_read cfg rl wav).2 =
        [LockEvent.acquire, LockEvent.invoke c, LockEvent.release]) := by
  constructor
  · have inv : ∀ s : GateState, GateReachable s →
        ∀ i, s.phases i = Phase.recognizing → s.lockHolder = some i := by
      intro s hs
      induction hs with
      | init => intro i hi; simp [initGate] at hi
      | @step u t hu hstep ih =>
          cases hstep with
          | request j hj =>
              intro i hi
              simp only [Function.update_apply] at hi
              by_cases hij : i = j
              · simp [hij] at hi
              · rw [if_neg hij] at hi
                exact ih i hi
          | acquire j hj hfree =>
              intro i hi
              simp only [Function.update_apply] at hi
              by_cases hij : i = j
              · simp [hij]
              · rw [if_neg hij] at hi
                rw [ih i hi] at hfree
                cases hfree
          | release j hj hold =>
              intro i hi
              simp only [Function.update_apply] at hi
              by_cases hij : i = j
              · simp [hij] at hi
              · rw [if_neg hij] at hi
                have h3 := ih i hi
                rw [hold] at h3
                injection h3 with h2
                exact absurd h2.symm hij
    intro s hs i j hi hj
    have h1 := inv s hs i hi
    have h2 := inv s hs j hj
    rw [h1] at h2
    injection h2
  · intro sf_read cfg rl wav c hmem
    rcases stopRun_cases sf_read cfg rl wav with
      ⟨-, he⟩ | ⟨m, e, -, -, he⟩ | ⟨m, t, -, -, he⟩ <;> rw [he] at hmem ⊢
    · simp at hmem
    · simp at hmem
      subst hmem
      rfl
    · simp at hmem
      subst hmem
      rfl

/-- Witness for C9: session 0 recognizing while holding the lock is reachable,
and a concrete stop's trace brackets its invoke between acquire and release. -/
theorem C9_mutual_exclusion_witness :
    (0 : SessionId) = 0 ∧
    (stopRun sfReadMono ⟨[("en", okModel)], none⟩ none wav16k).2 =
      [LockEvent.acquire, LockEvent.invoke (stopCall sfReadMono none wav16k),
       LockEvent.release] := by
  have hreach : GateReachable gateS2 :=
    GateReachable.step
      (GateReachable.step GateReachable.init (GateStep.request initGate 0 rfl))
      (GateStep.acquire gateS1 0 (by simp [gateS1]) rfl)
  have hrec : gateS2.phases 0 = Phase.recognizing := by simp [gateS2]
  refine ⟨C9_mutual_exclusion.1 gateS2 hreach 0 0 hrec hrec, ?_⟩
  exact C9_mutual_exclusion.2 sfReadMono ⟨[("en", okModel)], none⟩ none wav16k
    (stopCall sfReadMono none wav16k) (by decide)

/-- C10: `handle_event` returns `False` exactly for a handled `AudioStop`
(successful or error transcript alike) and `True` for every other event; an
event type the handler does not recognize is accepted with no state change,
no output, no recognize call. -/
theorem C10_return_value (sf_read : WavFile → Waveform × Nat) (cfg : Config)
    (s : SessionState) (e : Event) (r : StepResult)
    (h : handle_event sf_read cfg s e = Except.ok r) :
    (r.cont = false ↔ e = Event.audioStop) ∧
    (∀ ty, e = Event.other ty → r = ⟨s, [], [], [], true⟩) := by
  cases e with
  | audioChunk rate width channels audio =>
      unfold handle_event at h
      cases hw : s.wav_file <;> rw [hw] at h <;> injection h with h1 <;> subst h1 <;> simp
  | audioStop =>
      cases hw : s.wav_file with
      | none =>
          unfold handle_event at h
          rw [hw] at h
          cases h
      | some wav =>
          rw [handle_event_stop sf_read cfg s wav hw] at h
          injection h with h1
          subst h1
          simp [handleStop_cont]
  | transcribe language =>
      injection h with h1
      subst h1
      simp
  | describe =>
      injection h with h1
      subst h1
      simp
  | other ty =>
      injection h with h1
      subst h1
      simp

/-- Witness for C10: a `Describe` event returns `True`; the hypothesis is
discharged by evaluation. -/
theorem C10_return_value_witness :
    ((⟨⟨none, none⟩, [Output.info], [], [], true⟩ : StepResult).cont = false ↔
        Event.describe = Event.audioStop) ∧
    (∀ ty, Event.describe = Event.other ty →
        (⟨⟨none, none⟩, [Output.info], [], [], true⟩ : StepResult) =
          ⟨⟨none, none⟩, [], [], [], true⟩) :=
  C10_return_value sfReadMono ⟨[], none⟩ ⟨none, none⟩ Event.describe
    ⟨⟨none, none⟩, [Output.info], [], [], true⟩ rfl

end WyomingOnnxAsr
